import Mathlib

/-!
Node.js the Right Way, Chapter 3: `net-watcher.js` and `test-json-service.js`.

A shallow embedding of the two programs of the repository.

* `NetWatcher` embeds `Chapter 3/net-watcher.js`: the start-up check on
  `process.argv[2]`, the connection handler (greeting, `fs.watch`, the change
  callback, the `'close'` handler) and the event loop delivering connections,
  file changes, socket closes and socket errors to them.
* `TestJsonService` embeds `Chapter 3/networking/test-json-service.js`: the two
  chunks it writes, the timer and the `'end'` handler.
* `FrameCodec` holds the frame codec of the design document, which the
  repository does not implement.

JavaScript strings are Lean `String`s. What Node.js supplies from outside the
program is a parameter of the event that needs it: whether `fs.watch` succeeds,
and the text `new Date()` renders to.
-/

namespace NetWatcher

/-! ## Data model -/

/-- JavaScript truthiness of `process.argv[2]`, which is `undefined` (`none`)
or a string: `undefined` and the empty string are falsy. -/
def truthy : Option String → Bool
  | none => false
  | some s => decide (s ≠ "")

/-- The `FSWatcher` returned by `fs.watch`. `active` tells whether it still
invokes its callback; `closeCalls` counts the calls of `watcher.close()`. -/
structure Watcher where
  active : Bool
  closeCalls : Nat
  deriving DecidableEq, Repr

/-- Result of `fs.watch(filename, callback)` when it does not throw. -/
def Watcher.fresh : Watcher := { active := true, closeCalls := 0 }

/-- The method `watcher.close()`: the watcher stops; a call on a stopped
watcher changes nothing but the count of calls. -/
def Watcher.close (w : Watcher) : Watcher :=
  { active := false, closeCalls := w.closeCalls + 1 }

/-- One accepted socket with what the connection handler bound to it.
`written` lists the arguments of `connection.write`, oldest first; `watcher` is
the `const watcher`, absent when `fs.watch` threw before binding it. -/
structure Connection where
  isOpen : Bool
  written : List String
  watcher : Option Watcher
  deriving DecidableEq, Repr

/-- The server object with the module-level `filename` it closes over. `port`
is the argument of `server.listen`. -/
structure Server where
  filename : String
  port : String
  conns : List Connection
  console : List String
  deriving DecidableEq, Repr

/-- An exception that nothing catches, which ends the process. -/
inductive Fatal where
  | thrown (message : String)
  | watchFailed (filename : String)
  | unhandledError (i : Nat)
  deriving DecidableEq, Repr

/-- The process: running its event loop with a listening server, or exited on
an uncaught exception. `exited e none` ended before `net.createServer`;
`exited e (some s)` ended inside a handler, leaving `s` behind. -/
inductive Proc where
  | running (s : Server)
  | exited (err : Fatal) (last : Option Server)
  deriving DecidableEq, Repr

/-- What the event loop can deliver. `connect watchOk`: a subscriber connects
and `fs.watch` succeeds or throws; `change now`: the watched file changes and
`now i` is the text of `new Date()` when the callback of connection `i` runs;
`close i`: a close signal for the socket of connection `i` (the peer ends, or
the socket is destroyed), without a transport error; `error i`: a transport
error on the socket of connection `i`, such as a connection reset by the peer,
which makes the socket emit `'error'`. -/
inductive Event where
  | connect (watchOk : Bool)
  | change (now : Nat → String)
  | close (i : Nat)
  | error (i : Nat)

/-! ## The program -/

/-- The template literal of line 13. -/
def greeting (filename : String) : String :=
  "Now watching \"" ++ filename ++ "\" for changes...\n"

/-- The template literal of line 16, `now` being the text of `new Date()`. -/
def eventLine (now : String) : String :=
  "File changed: " ++ now ++ "\n"

/-- The callback given to `fs.watch`: one `connection.write`. -/
def onChange (now : String) (c : Connection) : Connection :=
  { c with written := c.written ++ [eventLine now] }

/-- A change of the watched file as seen by one connection: its watcher runs
the callback if it is still active. -/
def fireChange (now : String) (c : Connection) : Connection :=
  match c.watcher with
  | some w => if w.active then onChange now c else c
  | none => c

/-- The `'close'` handler of lines 19-22 run on a closing socket: it calls
`watcher.close()`. -/
def onClose (c : Connection) : Connection :=
  { c with isOpen := false, watcher := c.watcher.map Watcher.close }

/-- The connection handler of lines 10-23. The greeting is written before
`fs.watch` is called; when `fs.watch` throws, nothing catches it. -/
def acceptConnection (s : Server) (watchOk : Bool) : Proc :=
  let console := s.console ++ ["Subscriber connected."]
  let written := [greeting s.filename]
  if watchOk then
    .running { s with
      console := console
      conns := s.conns ++ [{ isOpen := true, written := written, watcher := some Watcher.fresh }] }
  else
    .exited (.watchFailed s.filename) (some { s with
      console := console
      conns := s.conns ++ [{ isOpen := true, written := written, watcher := none }] })

/-- Lines 10 and 25: `net.createServer` followed by `server.listen('60300')`. -/
def createServerAndListen (filename : String) : Server :=
  { filename := filename, port := "60300", conns := [],
    console := ["Listening for subscribers..."] }

/-- The module body: the check of lines 6-8, then the server. -/
def main (argv2 : Option String) : Proc :=
  if truthy argv2 then
    .running (createServerAndListen (argv2.getD ""))
  else
    .exited (.thrown "Error: No filename specified.") none

/-- One turn of the event loop. An exited process does nothing more.

A socket emits `'close'` once: the first close signal for an open connection
runs the `'close'` handler, a signal for a connection already closed reaches no
handler. The connection handler registers no `'error'` listener, so an
`'error'` emitted by an open socket is thrown and, nothing catching it, ends
the process before any `'close'` handler runs. -/
def step : Proc → Event → Proc
  | .exited e last, _ => .exited e last
  | .running s, .connect watchOk => acceptConnection s watchOk
  | .running s, .change now =>
    .running { s with conns := s.conns.mapIdx (fun i c => fireChange (now i) c) }
  | .running s, .close i =>
    match s.conns[i]? with
    | none => .running s
    | some c =>
      if c.isOpen then
        .running { s with
          console := s.console ++ ["Subscriber disconnected."]
          conns := s.conns.set i (onClose c) }
      else .running s
  | .running s, .error i =>
    match s.conns[i]? with
    | none => .running s
    | some c =>
      if c.isOpen then .exited (.unhandledError i) (some s) else .running s

/-- The process after a list of events. -/
def run (p : Proc) (evs : List Event) : Proc :=
  evs.foldl step p

/-- States the program can be in: `main` followed by events. -/
def Reachable (p : Proc) : Prop :=
  ∃ argv2 evs, run (main argv2) evs = p

/-- Number of connections still open. -/
def openCount (s : Server) : Nat :=
  (s.conns.filter (fun c => c.isOpen)).length

/-- Number of `connection.write` calls made so far, over all connections. -/
def totalWrites (s : Server) : Nat :=
  (s.conns.map (fun c => c.written.length)).sum

/-- Whether `server.listen` was reached: the process runs, or exited leaving a
server behind. -/
def Proc.boundSocket : Proc → Bool
  | .running _ => true
  | .exited _ (some _) => true
  | .exited _ none => false

/-- Connections the process has accepted, including those it left behind. -/
def Proc.accepted : Proc → List Connection
  | .running s => s.conns
  | .exited _ (some s) => s.conns
  | .exited _ none => []

/-- The server a process has or has left behind. -/
def Proc.server? : Proc → Option Server
  | .running s => some s
  | .exited _ last => last

/-- The writes of a connection start with the greeting and go on with event
lines only. -/
def Connection.GreetingFirst (filename : String) (c : Connection) : Prop :=
  ∃ rest, c.written = greeting filename :: rest ∧ ∀ x ∈ rest, ∃ now, x = eventLine now

/-- What holds of each connection of a running server: it has its watcher,
which is active exactly while the connection is open, `watcher.close()` has
been called never while the connection is open and once when it is closed, and
its writes are the greeting followed by event lines. -/
def Connection.Inv (filename : String) (c : Connection) : Prop :=
  ∃ w, c.watcher = some w ∧ w.active = c.isOpen ∧
    w.closeCalls = (if c.isOpen then 0 else 1) ∧ c.GreetingFirst filename

/-- What holds of each connection an exited process leaves behind: its writes
are the greeting followed by event lines, and `watcher.close()` was called at
most once. -/
def Connection.Left (filename : String) (c : Connection) : Prop :=
  c.GreetingFirst filename ∧ ∀ w, c.watcher = some w → w.closeCalls ≤ 1

/-- What holds of a running server. -/
def Server.Inv (s : Server) : Prop :=
  s.filename ≠ "" ∧ s.port = "60300" ∧ ∀ c ∈ s.conns, c.Inv s.filename

/-- What holds of a process. -/
def Proc.Inv : Proc → Prop
  | .running s => s.Inv
  | .exited _ (some s) => ∀ c ∈ s.conns, c.Left s.filename
  | .exited _ none => True

/-- Example state: three subscribers are connected to a server that watches
`target.txt`. -/
def threeSubscribers : Server :=
  { filename := "target.txt", port := "60300",
    conns := [{ isOpen := true, written := [greeting "target.txt"], watcher := some Watcher.fresh },
              { isOpen := true, written := [greeting "target.txt"], watcher := some Watcher.fresh },
              { isOpen := true, written := [greeting "target.txt"], watcher := some Watcher.fresh }],
    console := ["Listening for subscribers...", "Subscriber connected.",
                "Subscriber connected.", "Subscriber connected."] }

/-- Example state: of two subscribers the first has disconnected. -/
def oneClosed : Server :=
  { filename := "target.txt", port := "60300",
    conns := [{ isOpen := false, written := [greeting "target.txt"],
                watcher := some { active := false, closeCalls := 1 } },
              { isOpen := true, written := [greeting "target.txt"], watcher := some Watcher.fresh }],
    console := ["Listening for subscribers...", "Subscriber connected.",
                "Subscriber connected.", "Subscriber disconnected."] }

/-- Example clock: every callback sees the same date text. -/
def sampleDate : Nat → String :=
  fun _ => "Sun May 06 2018 01:08:55 GMT+0530 (IST)"

/-- The wire form the design document gives for an event line. -/
def IsJsonEventLine (line : String) : Prop :=
  ∃ t : Int, line = "\x7b\"type\":\"changed\",\"timestamp\":" ++ toString t ++ "\x7d\n"

end NetWatcher


namespace Wire

/-! Bytes of the TCP stream are natural numbers below 256. -/

/-- UTF-8 encoding of one character, the encoding `connection.write` applies to
a string. -/
def utf8EncodeChar (c : Char) : List Nat :=
  let v := c.toNat
  if v ≤ 0x7f then [v]
  else if v ≤ 0x7ff then [0xc0 + v / 64, 0x80 + v % 64]
  else if v ≤ 0xffff then [0xe0 + v / 4096, 0x80 + v / 64 % 64, 0x80 + v % 64]
  else [0xf0 + v / 262144, 0x80 + v / 4096 % 64, 0x80 + v / 64 % 64, 0x80 + v % 64]

/-- The bytes `connection.write(s)` puts on the stream. -/
def utf8 (s : String) : List Nat :=
  s.data.flatMap utf8EncodeChar

/-- The line feed, byte 10. -/
def newline : Nat := 10

end Wire

namespace TestJsonService

open Wire

/-- The constant of line 5. -/
def firstChunk : String := "\x7b\"type\": \"changed\", \"timesta"

/-- The constant of line 6. -/
def secondChunk : String := "mp\": 1525549135\x7d\n"

/-- One accepted socket of the test service: what was written to it, whether
the 100 ms timer is still pending, whether `connection.end()` was called. -/
structure Connection where
  written : List String
  timerPending : Bool
  ended : Bool
  console : List String
  deriving DecidableEq, Repr

/-- The connection handler of lines 1-21 up to its return: the first chunk is
written at once and the timer is set. -/
def onConnection : Connection :=
  { written := [firstChunk], timerPending := true, ended := false,
    console := ["Subscriber Connected"] }

/-- The timer callback of lines 12-15, which runs only if the timer was not
cleared. -/
def onTimer (c : Connection) : Connection :=
  if c.timerPending then
    { c with written := c.written ++ [secondChunk], timerPending := false, ended := true }
  else c

/-- The `'end'` handler of lines 17-20. -/
def onEnd (c : Connection) : Connection :=
  { c with timerPending := false, console := c.console ++ ["Subscriber disconnected."] }

/-- The chunks a subscriber that stays connected is sent, as bytes, in order. -/
def sentChunks : List (List Nat) :=
  (onTimer onConnection).written.map utf8

end TestJsonService

namespace FrameCodec

open Wire

/-- Modelled from the spec: the ChangeEvent of section 3, which the repository
does not declare. Its `type` is the constant string "changed", so an event is
its integer timestamp. -/
structure ChangeEvent where
  timestamp : Int
  deriving DecidableEq, Repr

/-- Modelled from the spec: the `type` field of a ChangeEvent, always
"changed". -/
def ChangeEvent.type (_ : ChangeEvent) : String := "changed"

/-- Modelled from the spec: the canonical JSON text of an event, the form
section 6 gives for an event line, without its terminator. The repository has
no serializer. -/
def payloadText (e : ChangeEvent) : String :=
  "\x7b\"type\":\"" ++ e.type ++ "\",\"timestamp\":" ++ toString e.timestamp ++ "\x7d"

/-- Modelled from the spec: the payload bytes of an event. -/
def payload (e : ChangeEvent) : List Nat :=
  utf8 (payloadText e)

/-- Modelled from the spec: `encode` of section 4.1, missing from the
repository: the canonical form followed by a single newline byte. -/
def encode (e : ChangeEvent) : List Nat :=
  payload e ++ [newline]

/-- Modelled from the spec: the scan of `decode` (section 4.1) for terminator
occurrences. `cur` holds the bytes of the frame under way; each newline closes
a frame; what follows the last newline is the remaining buffer. -/
def scan (cur : List Nat) : List Nat → List (List Nat) × List Nat
  | [] => ([], cur)
  | b :: rest =>
    if b = newline then
      let r := scan [] rest
      (cur :: r.1, r.2)
    else
      scan (cur ++ [b]) rest

/-- Modelled from the spec: `decode(buffer, newBytes)` of section 4.1, missing
from the repository: append, scan, return the complete frames in arrival order
and the unterminated tail. -/
def decode (buffer newBytes : List Nat) : List (List Nat) × List Nat :=
  scan [] (buffer ++ newBytes)

/-- Modelled from the spec: feeding chunks to `decode` one at a time, carrying
the returned buffer forward (section 8, chunk-invariance). -/
def feed (buffer : List Nat) : List (List Nat) → List (List Nat) × List Nat
  | [] => ([], buffer)
  | chunk :: rest =>
    let d := decode buffer chunk
    let r := feed d.2 rest
    (d.1 ++ r.1, r.2)

/-- JSON insignificant whitespace: space, tab, line feed, carriage return. -/
def isWs (b : Nat) : Bool :=
  b = 32 || b = 9 || b = 10 || b = 13

/-- Drop leading whitespace. -/
def skipWs : List Nat → List Nat
  | [] => []
  | b :: rest => if isWs b then skipWs rest else b :: rest

/-- Consume the given bytes from the front of the input, or fail. -/
def expectBytes : List Nat → List Nat → Option (List Nat)
  | [], input => some input
  | _ :: _, [] => none
  | b :: bs, i :: input => if b = i then expectBytes bs input else none

/-- Consume the UTF-8 bytes of a literal. -/
def expect (lit : String) (input : List Nat) : Option (List Nat) :=
  expectBytes (utf8 lit) input

/-- An ASCII decimal digit. -/
def isDigit (b : Nat) : Bool :=
  decide (48 ≤ b) && decide (b ≤ 57)

/-- Read a run of decimal digits into the accumulator. -/
def readDigits (acc : Nat) : List Nat → Nat × List Nat
  | [] => (acc, [])
  | b :: rest =>
    if isDigit b then readDigits (acc * 10 + (b - 48)) rest else (acc, b :: rest)

/-- Read a non-empty run of decimal digits. -/
def readNat : List Nat → Option (Nat × List Nat)
  | [] => none
  | b :: rest => if isDigit b then some (readDigits 0 (b :: rest)) else none

/-- Read an integer: an optional minus sign, then digits. -/
def readInt : List Nat → Option (Int × List Nat)
  | [] => none
  | b :: rest =>
    if b = 45 then
      (readNat rest).map (fun r => (-(r.1 : Int), r.2))
    else
      (readNat (b :: rest)).map (fun r => ((r.1 : Int), r.2))

/-- Modelled from the spec: reading a frame back as an event. The repository
has no parser; this one accepts a JSON object of the form section 6 gives,
`type` "changed" then an integer `timestamp`, with the whitespace JSON allows
between tokens. -/
def parseFrame (frame : List Nat) : Option ChangeEvent := do
  let i ← expect "\x7b" (skipWs frame)
  let i ← expect "\"type\"" (skipWs i)
  let i ← expect ":" (skipWs i)
  let i ← expect "\"changed\"" (skipWs i)
  let i ← expect "," (skipWs i)
  let i ← expect "\"timestamp\"" (skipWs i)
  let i ← expect ":" (skipWs i)
  let r ← readInt (skipWs i)
  let i ← expect "\x7d" (skipWs r.2)
  if skipWs i = [] then some { timestamp := r.1 } else none

/-- The JSON text the two chunks of the test service make together, without
the final newline. -/
def harnessMessage : String :=
  "\x7b\"type\": \"changed\", \"timestamp\": 1525549135\x7d"

/-- Example events: the one of the test service and one with a negative
timestamp. -/
def sampleEvents : List ChangeEvent :=
  [{ timestamp := 1525549135 }, { timestamp := -7 }]

/-- Example chunking of the encodings of `sampleEvents`: a cut inside the first
payload, a cut inside the second, and an empty delivery between them. -/
def sampleChunks : List (List Nat) :=
  [(encode { timestamp := 1525549135 }).take 29,
   (encode { timestamp := 1525549135 }).drop 29 ++ (encode { timestamp := -7 }).take 5,
   [],
   (encode { timestamp := -7 }).drop 5]

end FrameCodec

/-! # Theorems -/

namespace NetWatcher

/-! ## The event loop -/

theorem run_nil (p : Proc) : run p [] = p := rfl

theorem run_cons (p : Proc) (e : Event) (evs : List Event) :
    run p (e :: evs) = run (step p e) evs := rfl

theorem run_append (p : Proc) (evs₁ evs₂ : List Event) :
    run p (evs₁ ++ evs₂) = run (run p evs₁) evs₂ := by
  simp [run, List.foldl_append]

theorem step_exited (e : Fatal) (last : Option Server) (ev : Event) :
    step (.exited e last) ev = .exited e last := by
  cases ev <;> rfl

theorem run_exited (e : Fatal) (last : Option Server) (evs : List Event) :
    run (.exited e last) evs = .exited e last := by
  induction evs with
  | nil => rfl
  | cons ev evs ih => rw [run_cons, step_exited, ih]

/-! ## Invariant of the reachable states -/

theorem Connection.Inv.greetingFirst {filename : String} {c : Connection}
    (h : c.Inv filename) : c.GreetingFirst filename := by
  obtain ⟨w, _, _, _, hg⟩ := h
  exact hg

theorem fireChange_of_active {c : Connection} {w : Watcher} (now : String)
    (hw : c.watcher = some w) (ha : w.active = true) :
    fireChange now c = { c with written := c.written ++ [eventLine now] } := by
  simp [fireChange, hw, ha, onChange]

theorem fireChange_of_inactive {c : Connection} {w : Watcher} (now : String)
    (hw : c.watcher = some w) (ha : w.active = false) :
    fireChange now c = c := by
  simp [fireChange, hw, ha]

theorem fireChange_inv {filename : String} {c : Connection} (now : String)
    (h : c.Inv filename) : (fireChange now c).Inv filename := by
  obtain ⟨w, hw, ha, hcl, rest, hr, hev⟩ := h
  cases hact : w.active with
  | false =>
    rw [fireChange_of_inactive now hw hact]
    exact ⟨w, hw, ha, hcl, rest, hr, hev⟩
  | true =>
    rw [fireChange_of_active now hw hact]
    refine ⟨w, hw, ha, hcl, rest ++ [eventLine now], by simp [hr], ?_⟩
    intro x hx
    rcases List.mem_append.mp hx with hx | hx
    · exact hev x hx
    · exact ⟨now, by simpa using hx⟩

theorem Connection.Inv.left {filename : String} {c : Connection}
    (h : c.Inv filename) : c.Left filename := by
  obtain ⟨w, hw, _, hcalls, hg⟩ := h
  refine ⟨hg, ?_⟩
  intro w2 hw2
  rw [hw] at hw2
  cases hw2
  rw [hcalls]
  split <;> omega

theorem onClose_inv {filename : String} {c : Connection}
    (h : c.Inv filename) (ho : c.isOpen = true) : (onClose c).Inv filename := by
  obtain ⟨w, hw, _, hcalls, hg⟩ := h
  rw [ho, if_pos rfl] at hcalls
  exact ⟨w.close, by simp [onClose, hw], by simp [onClose, Watcher.close],
    by simp [onClose, Watcher.close, hcalls], hg⟩

theorem step_close_of_open (s : Server) (i : Nat) (c : Connection)
    (hc : s.conns[i]? = some c) (ho : c.isOpen = true) :
    step (.running s) (.close i)
      = .running { s with
          console := s.console ++ ["Subscriber disconnected."]
          conns := s.conns.set i (onClose c) } := by
  simp [step, hc, ho]

theorem step_close_of_closed (s : Server) (i : Nat) (c : Connection)
    (hc : s.conns[i]? = some c) (ho : c.isOpen = false) :
    step (.running s) (.close i) = .running s := by
  simp [step, hc, ho]

theorem step_close_of_none (s : Server) (i : Nat) (hc : s.conns[i]? = none) :
    step (.running s) (.close i) = .running s := by
  simp [step, hc]

theorem step_error_of_open (s : Server) (i : Nat) (c : Connection)
    (hc : s.conns[i]? = some c) (ho : c.isOpen = true) :
    step (.running s) (.error i) = .exited (.unhandledError i) (some s) := by
  simp [step, hc, ho]

theorem step_error_of_closed (s : Server) (i : Nat) (c : Connection)
    (hc : s.conns[i]? = some c) (ho : c.isOpen = false) :
    step (.running s) (.error i) = .running s := by
  simp [step, hc, ho]

theorem step_error_of_none (s : Server) (i : Nat) (hc : s.conns[i]? = none) :
    step (.running s) (.error i) = .running s := by
  simp [step, hc]

theorem main_inv (argv2 : Option String) : (main argv2).Inv := by
  unfold main
  split
  · rename_i h
    refine ⟨?_, rfl, by simp [createServerAndListen]⟩
    cases argv2 with
    | none => simp [truthy] at h
    | some f => simpa [truthy, createServerAndListen] using h
  · trivial

theorem step_inv (p : Proc) (ev : Event) (h : p.Inv) : (step p ev).Inv := by
  cases p with
  | exited e last => rw [step_exited]; exact h
  | running s =>
    obtain ⟨hf, hp, hc⟩ := h
    cases ev with
    | connect ok =>
      cases ok with
      | true =>
        refine ⟨hf, hp, ?_⟩
        intro c hmem
        rcases List.mem_append.mp hmem with hmem | hmem
        · exact hc c hmem
        · rw [List.mem_singleton] at hmem
          subst hmem
          exact ⟨Watcher.fresh, rfl, rfl, by simp [Watcher.fresh], [], rfl, by simp⟩
      | false =>
        intro c hmem
        rcases List.mem_append.mp hmem with hmem | hmem
        · exact (hc c hmem).left
        · rw [List.mem_singleton] at hmem
          subst hmem
          exact ⟨⟨[], rfl, by simp⟩, by simp⟩
    | change now =>
      refine ⟨hf, hp, ?_⟩
      intro c hmem
      obtain ⟨i, hi⟩ := List.getElem?_of_mem hmem
      simp only [List.getElem?_mapIdx] at hi
      cases hsi : s.conns[i]? with
      | none => simp [hsi] at hi
      | some d =>
        simp only [hsi, Option.map_some', Option.some.injEq] at hi
        subst hi
        exact fireChange_inv (now i) (hc d (List.getElem?_mem hsi))
    | close i =>
      cases hsi : s.conns[i]? with
      | none => rw [step_close_of_none s i hsi]; exact ⟨hf, hp, hc⟩
      | some d =>
        cases ho : d.isOpen with
        | false => rw [step_close_of_closed s i d hsi ho]; exact ⟨hf, hp, hc⟩
        | true =>
          rw [step_close_of_open s i d hsi ho]
          refine ⟨hf, hp, ?_⟩
          intro c hmem
          rcases List.mem_or_eq_of_mem_set hmem with hmem | hmem
          · exact hc c hmem
          · subst hmem
            exact onClose_inv (hc d (List.getElem?_mem hsi)) ho
    | error i =>
      cases hsi : s.conns[i]? with
      | none => rw [step_error_of_none s i hsi]; exact ⟨hf, hp, hc⟩
      | some d =>
        cases ho : d.isOpen with
        | false => rw [step_error_of_closed s i d hsi ho]; exact ⟨hf, hp, hc⟩
        | true =>
          rw [step_error_of_open s i d hsi ho]
          exact fun c hmem => (hc c hmem).left

theorem run_inv (p : Proc) (evs : List Event) (h : p.Inv) : (run p evs).Inv := by
  induction evs generalizing p with
  | nil => exact h
  | cons ev evs ih => exact ih (step p ev) (step_inv p ev h)

theorem reachable_inv {p : Proc} (h : Reachable p) : p.Inv := by
  obtain ⟨argv2, evs, rfl⟩ := h
  exact run_inv _ evs (main_inv argv2)

theorem reachable_running_inv {s : Server} (h : Reachable (.running s)) : s.Inv :=
  reachable_inv h

/-! ## Texts written to a connection -/

theorem greeting_data (filename : String) :
    (greeting filename).data
      = "Now watching \"".data ++ filename.data ++ "\" for changes...\n".data := by
  simp [greeting]

theorem eventLine_data (now : String) :
    (eventLine now).data = "File changed: ".data ++ now.data ++ ['\n'] := by
  simp [eventLine]

theorem eventLine_not_json (now : String) : ¬ IsJsonEventLine (eventLine now) := by
  rintro ⟨t, h⟩
  have h2 := congrArg String.data h
  simp [eventLine] at h2

theorem eventLine_ne_greeting (now filename : String) : eventLine now ≠ greeting filename := by
  intro h
  have h2 := congrArg String.data h
  simp [eventLine, greeting] at h2

theorem greeting_count_newline (filename : String) (h : '\n' ∉ filename.data) :
    (greeting filename).data.count '\n' = 1 := by
  rw [greeting_data, List.count_append, List.count_append, List.count_eq_zero_of_not_mem h]
  decide

theorem eventLine_count_newline (now : String) (h : '\n' ∉ now.data) :
    (eventLine now).data.count '\n' = 1 := by
  rw [eventLine_data, List.count_append, List.count_append, List.count_eq_zero_of_not_mem h]
  decide

theorem greeting_getLast (filename : String) :
    (greeting filename).data.getLast? = some '\n' := by
  rw [greeting_data]
  have h : "\" for changes...\n".data
      = "\" for changes...".data ++ ['\n'] := by decide
  rw [h, ← List.append_assoc, List.getLast?_append]
  rfl

theorem greeting_infix (filename : String) :
    filename.data <:+: (greeting filename).data := by
  rw [greeting_data]
  exact ⟨_, _, rfl⟩

/-! ## Claims on net-watcher -/

/-- C1, as the code has it: when a change notification fires on a connection
whose watcher is active, exactly one write is added to that connection, the
text "File changed: " followed by the rendering of the current date and a
newline. It ends in that newline, has no other newline when the date text has
none, and starts with the letter F: it is not a JSON object of the form
`{"type":"changed","timestamp":<integer>}`. -/
theorem C1_change_writes_one_text_line (c : Connection) (w : Watcher) (now : String)
    (hw : c.watcher = some w) (ha : w.active = true) :
    fireChange now c = { c with written := c.written ++ [eventLine now] } ∧
    (eventLine now).data = "File changed: ".data ++ now.data ++ ['\n'] ∧
    ('\n' ∉ now.data → (eventLine now).data.count '\n' = 1) ∧
    (eventLine now).data.head? = some 'F' ∧
    ¬ IsJsonEventLine (eventLine now) :=
  ⟨fireChange_of_active now hw ha, eventLine_data now, eventLine_count_newline now,
    by rw [eventLine_data]; rfl, eventLine_not_json now⟩

/-- C1 at a concrete connection and date. -/
theorem C1_change_writes_one_text_line_witness :
    (some Watcher.fresh : Option Watcher) = some Watcher.fresh ∧ Watcher.fresh.active = true ∧
    (fireChange "Sun May 06 2018 01:08:55 GMT+0530 (IST)"
        { isOpen := true, written := [greeting "target.txt"], watcher := some Watcher.fresh }
      = { isOpen := true,
          written := [greeting "target.txt"]
            ++ [eventLine "Sun May 06 2018 01:08:55 GMT+0530 (IST)"],
          watcher := some Watcher.fresh } ∧
    (eventLine "Sun May 06 2018 01:08:55 GMT+0530 (IST)").data
      = "File changed: ".data ++ "Sun May 06 2018 01:08:55 GMT+0530 (IST)".data ++ ['\n'] ∧
    ('\n' ∉ "Sun May 06 2018 01:08:55 GMT+0530 (IST)".data →
      (eventLine "Sun May 06 2018 01:08:55 GMT+0530 (IST)").data.count '\n' = 1) ∧
    (eventLine "Sun May 06 2018 01:08:55 GMT+0530 (IST)").data.head? = some 'F' ∧
    ¬ IsJsonEventLine (eventLine "Sun May 06 2018 01:08:55 GMT+0530 (IST)")) :=
  ⟨rfl, rfl,
    C1_change_writes_one_text_line
      { isOpen := true, written := [greeting "target.txt"], watcher := some Watcher.fresh }
      Watcher.fresh "Sun May 06 2018 01:08:55 GMT+0530 (IST)" rfl rfl⟩

/-- C1 as stated fails: the line written for a change is plain text, not a JSON
object with a type and a timestamp. -/
theorem C1_counterexample :
    fireChange "Sun May 06 2018 01:08:55 GMT+0530 (IST)"
        { isOpen := true, written := [greeting "target.txt"], watcher := some Watcher.fresh }
      = { isOpen := true,
          written := [greeting "target.txt",
            "File changed: Sun May 06 2018 01:08:55 GMT+0530 (IST)\n"],
          watcher := some Watcher.fresh } ∧
    ¬ IsJsonEventLine "File changed: Sun May 06 2018 01:08:55 GMT+0530 (IST)\n" :=
  ⟨by decide, eventLine_not_json "Sun May 06 2018 01:08:55 GMT+0530 (IST)"⟩

/-- C2, as the code has it: in every reachable state, the writes to an accepted
connection start with the greeting, which occurs once and is followed by event
lines only. The greeting contains the watched filename and ends in a newline;
it contains no other newline provided the filename contains none. -/
theorem C2_greeting_is_first_write (p : Proc) (s : Server) (c : Connection)
    (hp : Reachable p) (hs : p.server? = some s) (hc : c ∈ s.conns) :
    (∃ rest, c.written = greeting s.filename :: rest ∧ greeting s.filename ∉ rest ∧
      ∀ x ∈ rest, ∃ now, x = eventLine now) ∧
    s.filename.data <:+: (greeting s.filename).data ∧
    (greeting s.filename).data.getLast? = some '\n' ∧
    ('\n' ∉ s.filename.data → (greeting s.filename).data.count '\n' = 1) := by
  have hinv := reachable_inv hp
  have hg : c.GreetingFirst s.filename := by
    cases p with
    | running s0 =>
      simp only [Proc.server?, Option.some.injEq] at hs
      subst hs
      exact (hinv.2.2 c hc).greetingFirst
    | exited e last =>
      simp only [Proc.server?] at hs
      subst hs
      exact (hinv c hc).1
  obtain ⟨rest, hr, hev⟩ := hg
  refine ⟨⟨rest, hr, ?_, hev⟩, greeting_infix _, greeting_getLast _, greeting_count_newline _⟩
  intro hmem
  obtain ⟨now, hnow⟩ := hev _ hmem
  exact eventLine_ne_greeting now s.filename hnow.symm

/-- C2 at the state after one subscriber connected and one change fired. -/
theorem C2_greeting_is_first_write_witness :
    Reachable (run (main (some "target.txt")) [.connect true, .change (fun _ => "Sun May 06 2018")]) ∧
    (run (main (some "target.txt")) [.connect true, .change (fun _ => "Sun May 06 2018")]).server?
      = some { filename := "target.txt", port := "60300",
               conns := [{ isOpen := true,
                           written := [greeting "target.txt", eventLine "Sun May 06 2018"],
                           watcher := some Watcher.fresh }],
               console := ["Listening for subscribers...", "Subscriber connected."] } ∧
    ({ isOpen := true, written := [greeting "target.txt", eventLine "Sun May 06 2018"],
       watcher := some Watcher.fresh } : Connection)
      ∈ [({ isOpen := true, written := [greeting "target.txt", eventLine "Sun May 06 2018"],
            watcher := some Watcher.fresh } : Connection)] ∧
    ((∃ rest, [greeting "target.txt", eventLine "Sun May 06 2018"]
        = greeting "target.txt" :: rest ∧ greeting "target.txt" ∉ rest ∧
        ∀ x ∈ rest, ∃ now, x = eventLine now) ∧
      "target.txt".data <:+: (greeting "target.txt").data ∧
      (greeting "target.txt").data.getLast? = some '\n' ∧
      ('\n' ∉ "target.txt".data → (greeting "target.txt").data.count '\n' = 1)) :=
  ⟨⟨some "target.txt", _, rfl⟩, by decide, List.mem_singleton.mpr rfl,
    C2_greeting_is_first_write
      (run (main (some "target.txt")) [.connect true, .change (fun _ => "Sun May 06 2018")])
      { filename := "target.txt", port := "60300",
        conns := [{ isOpen := true,
                    written := [greeting "target.txt", eventLine "Sun May 06 2018"],
                    watcher := some Watcher.fresh }],
        console := ["Listening for subscribers...", "Subscriber connected."] }
      { isOpen := true, written := [greeting "target.txt", eventLine "Sun May 06 2018"],
        watcher := some Watcher.fresh }
      ⟨some "target.txt", _, rfl⟩ (by decide) (List.mem_singleton.mpr rfl)⟩

/-- C2 as stated fails for a filename that contains a newline: the greeting
then holds a newline before its last character. -/
theorem C2_counterexample :
    run (main (some "a\nb")) [.connect true]
      = .running { filename := "a\nb", port := "60300",
                   conns := [{ isOpen := true,
                               written := ["Now watching \"a\nb\" for changes...\n"],
                               watcher := some Watcher.fresh }],
                   console := ["Listening for subscribers...", "Subscriber connected."] } ∧
    "Now watching \"a\nb\" for changes...\n".data.count '\n' = 2 ∧
    '\n' ∈ "Now watching \"a\nb\" for changes...\n".data.dropLast := by
  decide

/-! ## One change signal -/

theorem fireChange_of_open {filename : String} {c : Connection} (now : String)
    (h : c.Inv filename) (ho : c.isOpen = true) :
    fireChange now c = { c with written := c.written ++ [eventLine now] } := by
  obtain ⟨w, hw, ha, _, _⟩ := h
  exact fireChange_of_active now hw (ha.trans ho)

theorem fireChange_of_closed {filename : String} {c : Connection} (now : String)
    (h : c.Inv filename) (ho : c.isOpen = false) :
    fireChange now c = c := by
  obtain ⟨w, hw, ha, _, _⟩ := h
  exact fireChange_of_inactive now hw (ha.trans ho)

theorem sum_written_mapIdx_fireChange (filename : String) (l : List Connection)
    (now : Nat → String) (h : ∀ c ∈ l, c.Inv filename) :
    ((l.mapIdx (fun i c => fireChange (now i) c)).map (fun c => c.written.length)).sum
      = (l.map (fun c => c.written.length)).sum + (l.filter (fun c => c.isOpen)).length := by
  induction l generalizing now with
  | nil => rfl
  | cons c l ih =>
    have hc := h c (List.mem_cons_self c l)
    have hl := ih (fun i => now (i + 1)) (fun d hd => h d (List.mem_cons_of_mem c hd))
    rw [List.mapIdx_cons, List.map_cons, List.sum_cons, hl]
    cases ho : c.isOpen with
    | true =>
      rw [fireChange_of_open (now 0) hc ho]
      simp [List.filter_cons, ho]
      omega
    | false =>
      rw [fireChange_of_closed (now 0) hc ho]
      simp [List.filter_cons, ho]
      omega

theorem step_change_conns (s : Server) (now : Nat → String) (hinv : s.Inv) :
    ∃ s2, step (.running s) (.change now) = .running s2 ∧
      s2.filename = s.filename ∧ s2.port = s.port ∧ s2.console = s.console ∧
      s2.conns.length = s.conns.length ∧
      (∀ (i : Nat) (c : Connection), s.conns[i]? = some c → c.isOpen = true →
        s2.conns[i]? = some { c with written := c.written ++ [eventLine (now i)] }) ∧
      (∀ (i : Nat) (c : Connection), s.conns[i]? = some c → c.isOpen = false → s2.conns[i]? = some c) ∧
      totalWrites s2 = totalWrites s + openCount s := by
  refine ⟨_, rfl, rfl, rfl, rfl, by simp, ?_, ?_, ?_⟩
  · intro i c hi ho
    simp only [List.getElem?_mapIdx, hi, Option.map_some']
    rw [fireChange_of_open (now i) (hinv.2.2 c (List.getElem?_mem hi)) ho]
  · intro i c hi ho
    simp only [List.getElem?_mapIdx, hi, Option.map_some']
    rw [fireChange_of_closed (now i) (hinv.2.2 c (List.getElem?_mem hi)) ho]
  · exact sum_written_mapIdx_fireChange s.filename s.conns now hinv.2.2

/-- C3: in every reachable state of the running server, one change signal adds
exactly one event line to each open connection and nothing to a closed one, so
that with n connections open exactly n lines are written in all. -/
theorem C3_one_event_line_per_open_connection (s : Server) (now : Nat → String) (n : Nat)
    (hr : Reachable (.running s)) (hn : openCount s = n) :
    ∃ s2, step (.running s) (.change now) = .running s2 ∧
      s2.conns.length = s.conns.length ∧
      (∀ (i : Nat) (c : Connection), s.conns[i]? = some c → c.isOpen = true →
        s2.conns[i]? = some { c with written := c.written ++ [eventLine (now i)] }) ∧
      (∀ (i : Nat) (c : Connection), s.conns[i]? = some c → c.isOpen = false → s2.conns[i]? = some c) ∧
      totalWrites s2 = totalWrites s + n := by
  obtain ⟨s2, h1, _, _, _, h2, h3, h4, h5⟩ := step_change_conns s now (reachable_running_inv hr)
  exact ⟨s2, h1, h2, h3, h4, hn ▸ h5⟩

theorem threeSubscribers_reachable : Reachable (.running threeSubscribers) :=
  ⟨some "target.txt", [.connect true, .connect true, .connect true], by decide⟩

/-- C3 at the state with three subscribers connected. -/
theorem C3_one_event_line_per_open_connection_witness :
    Reachable (.running threeSubscribers) ∧ openCount threeSubscribers = 3 ∧
    ∃ s2, step (.running threeSubscribers) (.change sampleDate) = .running s2 ∧
      s2.conns.length = threeSubscribers.conns.length ∧
      (∀ (i : Nat) (c : Connection), threeSubscribers.conns[i]? = some c → c.isOpen = true →
        s2.conns[i]? = some { c with written := c.written ++ [eventLine (sampleDate i)] }) ∧
      (∀ (i : Nat) (c : Connection), threeSubscribers.conns[i]? = some c → c.isOpen = false →
        s2.conns[i]? = some c) ∧
      totalWrites s2 = totalWrites threeSubscribers + 3 :=
  ⟨threeSubscribers_reachable, by decide,
    C3_one_event_line_per_open_connection threeSubscribers sampleDate 3
      threeSubscribers_reachable (by decide)⟩

/-! ## Close signals -/

theorem run_close_of_closed (k : Nat) (s : Server) (i : Nat) (c : Connection)
    (hc : s.conns[i]? = some c) (ho : c.isOpen = false) :
    run (.running s) (List.replicate k (.close i)) = .running s := by
  induction k with
  | zero => rfl
  | succ k ih => rw [List.replicate_succ, run_cons, step_close_of_closed s i c hc ho, ih]

theorem connection_eq_of_closed {filename : String} {c : Connection}
    (h : c.Inv filename) (ho : c.isOpen = false) :
    c = { isOpen := false, written := c.written,
          watcher := some { active := false, closeCalls := 1 } } := by
  obtain ⟨w, hw, ha, hcalls, _⟩ := h
  rw [ho] at ha
  rw [ho] at hcalls
  cases c with
  | mk isOpen written watcher =>
    cases w with
    | mk active closeCalls =>
      simp only at hw ha hcalls ho
      simp [hw, ha, hcalls, ho]

theorem onClose_of_open {filename : String} {c : Connection}
    (h : c.Inv filename) (ho : c.isOpen = true) :
    c.watcher = some Watcher.fresh ∧
    onClose c = { isOpen := false, written := c.written,
                  watcher := some { active := false, closeCalls := 1 } } := by
  obtain ⟨w, hw, ha, hcalls, _⟩ := h
  rw [ho] at ha
  rw [ho, if_pos rfl] at hcalls
  cases w with
  | mk active closeCalls =>
    simp only at ha hcalls
    subst ha hcalls
    exact ⟨hw, by simp [onClose, hw, Watcher.close]⟩

theorem step_close_result (s : Server) (i : Nat) (c : Connection)
    (hinv : s.Inv) (hc : s.conns[i]? = some c) :
    ∃ s1, step (.running s) (.close i) = .running s1 ∧
      s1.conns[i]? = some { isOpen := false, written := c.written,
                            watcher := some { active := false, closeCalls := 1 } } := by
  have hci := hinv.2.2 c (List.getElem?_mem hc)
  have hi : i < s.conns.length := (List.getElem?_eq_some_iff.mp hc).1
  cases ho : c.isOpen with
  | false =>
    exact ⟨s, step_close_of_closed s i c hc ho, by rw [hc, ← connection_eq_of_closed hci ho]⟩
  | true =>
    refine ⟨_, step_close_of_open s i c hc ho, ?_⟩
    simp [List.getElem?_set_self hi, (onClose_of_open hci ho).2]

theorem closeCalls_le_one {p : Proc} {s : Server} {c : Connection} {w : Watcher}
    (hinv : p.Inv) (hs : p.server? = some s) (hc : c ∈ s.conns) (hw : c.watcher = some w) :
    w.closeCalls ≤ 1 := by
  cases p with
  | running s0 =>
    simp only [Proc.server?, Option.some.injEq] at hs
    subst hs
    exact (hinv.2.2 c hc).left.2 w hw
  | exited e last =>
    simp only [Proc.server?] at hs
    subst hs
    exact (hinv c hc).2 w hw

/-- C4, as the code has it: in every reachable state, any number k of close
signals for a connection ends in the same state as a single one, with the
connection closed, its written output untouched and `watcher.close()` invoked
once, for the socket emits `'close'` once and only the first signal runs the
handler; and whatever events follow in whatever order, `watcher.close()` is
never invoked a second time. A transport error is no such signal: the program
has no `'error'` listener, so the error ends the process before the close
handler runs, and `watcher.close()` is not invoked for that connection. -/
theorem C4_close_signals_release_once (s : Server) (i : Nat) (c : Connection) (k : Nat)
    (hr : Reachable (.running s)) (hc : s.conns[i]? = some c) (hk : 1 ≤ k) :
    (∃ s1, step (.running s) (.close i) = .running s1 ∧
      run (.running s) (List.replicate k (.close i)) = .running s1 ∧
      s1.conns[i]? = some { isOpen := false, written := c.written,
                            watcher := some { active := false, closeCalls := 1 } }) ∧
    (∀ (evs : List Event) (s2 : Server) (c2 : Connection) (w2 : Watcher),
      (run (.running s) evs).server? = some s2 → s2.conns[i]? = some c2 →
      c2.watcher = some w2 → w2.closeCalls ≤ 1) ∧
    (c.isOpen = true →
      c.watcher = some Watcher.fresh ∧
      step (.running s) (.error i) = .exited (.unhandledError i) (some s) ∧
      ∀ evs, run (step (.running s) (.error i)) evs
        = .exited (.unhandledError i) (some s)) := by
  have hinv := reachable_running_inv hr
  have hci := hinv.2.2 c (List.getElem?_mem hc)
  refine ⟨?_, ?_, ?_⟩
  · obtain ⟨s1, hstep, hres⟩ := step_close_result s i c hinv hc
    obtain ⟨k, rfl⟩ : ∃ j, k = j + 1 := ⟨k - 1, by omega⟩
    refine ⟨s1, hstep, ?_, hres⟩
    rw [List.replicate_succ, run_cons, hstep]
    exact run_close_of_closed k s1 i _ hres rfl
  · intro evs s2 c2 w2 hs2 hc2 hw2
    exact closeCalls_le_one (run_inv (.running s) evs hinv) hs2 (List.getElem?_mem hc2) hw2
  · intro ho
    have hstep := step_error_of_open s i c hc ho
    refine ⟨(onClose_of_open hci ho).1, hstep, ?_⟩
    intro evs
    rw [hstep, run_exited]

/-- C4 at the state with three subscribers, the second sent three close
signals. -/
theorem C4_close_signals_release_once_witness :
    Reachable (.running threeSubscribers) ∧
    threeSubscribers.conns[1]?
      = some { isOpen := true, written := [greeting "target.txt"], watcher := some Watcher.fresh } ∧
    1 ≤ 3 ∧
    ((∃ s1, step (.running threeSubscribers) (.close 1) = .running s1 ∧
      run (.running threeSubscribers) (List.replicate 3 (.close 1)) = .running s1 ∧
      s1.conns[1]?
        = some { isOpen := false,
                 written := ({ isOpen := true, written := [greeting "target.txt"],
                               watcher := some Watcher.fresh } : Connection).written,
                 watcher := some { active := false, closeCalls := 1 } }) ∧
    (∀ (evs : List Event) (s2 : Server) (c2 : Connection) (w2 : Watcher),
      (run (.running threeSubscribers) evs).server? = some s2 → s2.conns[1]? = some c2 →
      c2.watcher = some w2 → w2.closeCalls ≤ 1) ∧
    (({ isOpen := true, written := [greeting "target.txt"],
        watcher := some Watcher.fresh } : Connection).isOpen = true →
      ({ isOpen := true, written := [greeting "target.txt"],
         watcher := some Watcher.fresh } : Connection).watcher = some Watcher.fresh ∧
      step (.running threeSubscribers) (.error 1)
        = .exited (.unhandledError 1) (some threeSubscribers) ∧
      ∀ evs, run (step (.running threeSubscribers) (.error 1)) evs
        = .exited (.unhandledError 1) (some threeSubscribers))) :=
  ⟨threeSubscribers_reachable, by decide, by decide,
    C4_close_signals_release_once threeSubscribers 1
      { isOpen := true, written := [greeting "target.txt"], watcher := some Watcher.fresh }
      3 threeSubscribers_reachable (by decide) (by decide)⟩

/-- C4 as stated fails when one of the close signals is a transport error: a
connection reset followed by a close ends with the process exited and
`watcher.close()` never invoked, not with the connection closed and
`watcher.close()` invoked once as after a single close. -/
theorem C4_counterexample :
    run (main (some "target.txt")) [.connect true, .error 0, .close 0]
      = .exited (.unhandledError 0)
          (some { filename := "target.txt", port := "60300",
                  conns := [{ isOpen := true, written := [greeting "target.txt"],
                              watcher := some { active := true, closeCalls := 0 } }],
                  console := ["Listening for subscribers...", "Subscriber connected."] }) ∧
    run (main (some "target.txt")) [.connect true, .close 0]
      = .running { filename := "target.txt", port := "60300",
                   conns := [{ isOpen := false, written := [greeting "target.txt"],
                               watcher := some { active := false, closeCalls := 1 } }],
                   console := ["Listening for subscribers...", "Subscriber connected.",
                               "Subscriber disconnected."] } ∧
    run (main (some "target.txt")) [.connect true, .error 0, .close 0]
      ≠ run (main (some "target.txt")) [.connect true, .close 0] := by
  decide

/-! ## Start-up -/

theorem main_of_truthy (filename : String) (hne : filename ≠ "") :
    main (some filename) = .running (createServerAndListen filename) := by
  simp [main, truthy, hne]

/-- C5: when `process.argv[2]` is absent or empty, the program throws
`Error: No filename specified.` before the server is created: the process has
exited with no server, no socket was bound, and whatever arrives afterwards no
connection is accepted. -/
theorem C5_no_filename_is_fatal (argv2 : Option String) (evs : List Event)
    (h : argv2 = none ∨ argv2 = some "") :
    main argv2 = .exited (.thrown "Error: No filename specified.") none ∧
    run (main argv2) evs = .exited (.thrown "Error: No filename specified.") none ∧
    (run (main argv2) evs).boundSocket = false ∧
    (run (main argv2) evs).accepted = [] := by
  have hm : main argv2 = .exited (.thrown "Error: No filename specified.") none := by
    rcases h with h | h <;> subst h <;> rfl
  rw [hm, run_exited]
  exact ⟨rfl, rfl, rfl, rfl⟩

/-- C5 for an empty argument and a subscriber that tries to connect. -/
theorem C5_no_filename_is_fatal_witness :
    ((some "" : Option String) = none ∨ (some "" : Option String) = some "") ∧
    (main (some "") = .exited (.thrown "Error: No filename specified.") none ∧
    run (main (some "")) [.connect true]
      = .exited (.thrown "Error: No filename specified.") none ∧
    (run (main (some "")) [.connect true]).boundSocket = false ∧
    (run (main (some "")) [.connect true]).accepted = []) :=
  ⟨Or.inr rfl, C5_no_filename_is_fatal (some "") [.connect true] (Or.inr rfl)⟩

/-- C6, as the code has it: launched with a non-empty filename, the program
creates the server and binds its socket whether or not the path exists, for
`fs.watch` is called in the connection handler only. When a subscriber connects
and opening the watch fails, the connection has been accepted and sent the
greeting, then the exception of `fs.watch` ends the process, which accepts
nothing more. -/
theorem C6_missing_path_fails_at_first_connection (filename : String) (evs : List Event)
    (hne : filename ≠ "") :
    main (some filename) = .running (createServerAndListen filename) ∧
    (main (some filename)).boundSocket = true ∧
    step (main (some filename)) (.connect false)
      = .exited (.watchFailed filename)
          (some { filename := filename, port := "60300",
                  conns := [{ isOpen := true, written := [greeting filename], watcher := none }],
                  console := ["Listening for subscribers...", "Subscriber connected."] }) ∧
    run (step (main (some filename)) (.connect false)) evs
      = step (main (some filename)) (.connect false) := by
  have hm := main_of_truthy filename hne
  have hs : step (main (some filename)) (.connect false)
      = .exited (.watchFailed filename)
          (some { filename := filename, port := "60300",
                  conns := [{ isOpen := true, written := [greeting filename], watcher := none }],
                  console := ["Listening for subscribers...", "Subscriber connected."] }) := by
    rw [hm]
    rfl
  refine ⟨hm, by rw [hm]; rfl, hs, ?_⟩
  rw [hs, run_exited]

/-- C6 for a missing file and a second subscriber after the first. -/
theorem C6_missing_path_fails_at_first_connection_witness :
    "missing.txt" ≠ "" ∧
    (main (some "missing.txt") = .running (createServerAndListen "missing.txt") ∧
    (main (some "missing.txt")).boundSocket = true ∧
    step (main (some "missing.txt")) (.connect false)
      = .exited (.watchFailed "missing.txt")
          (some { filename := "missing.txt", port := "60300",
                  conns := [{ isOpen := true, written := [greeting "missing.txt"],
                              watcher := none }],
                  console := ["Listening for subscribers...", "Subscriber connected."] }) ∧
    run (step (main (some "missing.txt")) (.connect false)) [.connect false]
      = step (main (some "missing.txt")) (.connect false)) :=
  ⟨by decide, C6_missing_path_fails_at_first_connection "missing.txt" [.connect false] (by decide)⟩

/-- C6 as stated fails: with a path that does not exist the program is running
with its socket bound, and it accepts a connection before it terminates. -/
theorem C6_counterexample :
    main (some "missing.txt")
      = .running { filename := "missing.txt", port := "60300", conns := [],
                   console := ["Listening for subscribers..."] } ∧
    (main (some "missing.txt")).boundSocket = true ∧
    (run (main (some "missing.txt")) [.connect false]).boundSocket = true ∧
    (run (main (some "missing.txt")) [.connect false]).accepted
      = [{ isOpen := true, written := ["Now watching \"missing.txt\" for changes...\n"],
           watcher := none }] := by
  decide

/-! ## Closed connections -/

theorem closed_of_closeCalls {filename : String} {c : Connection} {w : Watcher}
    (h : c.Inv filename) (hw : c.watcher = some w) (hcl : 0 < w.closeCalls) :
    c.isOpen = false := by
  obtain ⟨w2, hw2, _, hcalls, _⟩ := h
  rw [hw] at hw2
  cases hw2
  cases ho : c.isOpen with
  | false => rfl
  | true =>
    rw [ho, if_pos rfl] at hcalls
    omega

theorem step_keeps_closed (p : Proc) (ev : Event) (i : Nat) (out : List String)
    (hinv : p.Inv)
    (h : ∃ s2 c2, p.server? = some s2 ∧ s2.conns[i]? = some c2 ∧
      c2.written = out ∧ c2.isOpen = false) :
    ∃ s2 c2, (step p ev).server? = some s2 ∧ s2.conns[i]? = some c2 ∧
      c2.written = out ∧ c2.isOpen = false := by
  cases p with
  | exited e last => rw [step_exited]; exact h
  | running s =>
    obtain ⟨s2, c2, hs, hc, hwr, hcl⟩ := h
    simp only [Proc.server?, Option.some.injEq] at hs
    subst hs
    have hi : i < s.conns.length := (List.getElem?_eq_some_iff.mp hc).1
    cases ev with
    | connect ok =>
      cases ok with
      | true =>
        exact ⟨_, c2, rfl, by simp [List.getElem?_append_left hi, hc], hwr, hcl⟩
      | false =>
        exact ⟨_, c2, rfl, by simp [List.getElem?_append_left hi, hc], hwr, hcl⟩
    | change now =>
      refine ⟨_, c2, rfl, ?_, hwr, hcl⟩
      simp only [List.getElem?_mapIdx, hc, Option.map_some']
      rw [fireChange_of_closed (now i) (hinv.2.2 c2 (List.getElem?_mem hc)) hcl]
    | close j =>
      cases hj : s.conns[j]? with
      | none => rw [step_close_of_none s j hj]; exact ⟨s, c2, rfl, hc, hwr, hcl⟩
      | some d =>
        cases ho : d.isOpen with
        | false => rw [step_close_of_closed s j d hj ho]; exact ⟨s, c2, rfl, hc, hwr, hcl⟩
        | true =>
          rw [step_close_of_open s j d hj ho]
          have hji : j ≠ i := by
            rintro rfl
            rw [hc] at hj
            cases hj
            rw [hcl] at ho
            cases ho
          exact ⟨_, c2, rfl, by simp [List.getElem?_set_ne hji, hc], hwr, hcl⟩
    | error j =>
      cases hj : s.conns[j]? with
      | none => rw [step_error_of_none s j hj]; exact ⟨s, c2, rfl, hc, hwr, hcl⟩
      | some d =>
        cases ho : d.isOpen with
        | false => rw [step_error_of_closed s j d hj ho]; exact ⟨s, c2, rfl, hc, hwr, hcl⟩
        | true => rw [step_error_of_open s j d hj ho]; exact ⟨s, c2, rfl, hc, hwr, hcl⟩

theorem run_keeps_closed (p : Proc) (evs : List Event) (i : Nat) (out : List String)
    (hinv : p.Inv)
    (h : ∃ s2 c2, p.server? = some s2 ∧ s2.conns[i]? = some c2 ∧
      c2.written = out ∧ c2.isOpen = false) :
    ∃ s2 c2, (run p evs).server? = some s2 ∧ s2.conns[i]? = some c2 ∧
      c2.written = out ∧ c2.isOpen = false := by
  induction evs generalizing p with
  | nil => exact h
  | cons ev evs ih =>
    exact ih (step p ev) (step_inv p ev hinv) (step_keeps_closed p ev i out hinv h)

/-- C7: in every reachable state, a connection whose close handler has run
(its `watcher.close()` was called) is closed, a change signal leaves it exactly
as it is, and after any further events its written output is still the same:
nothing is written to it again. -/
theorem C7_nothing_written_after_close (s : Server) (i : Nat) (c : Connection)
    (w : Watcher) (evs : List Event)
    (hr : Reachable (.running s)) (hc : s.conns[i]? = some c)
    (hw : c.watcher = some w) (hcl : 0 < w.closeCalls) :
    c.isOpen = false ∧
    (∀ now, ∃ s2, step (.running s) (.change now) = .running s2 ∧ s2.conns[i]? = some c) ∧
    ∃ s2 c2, (run (.running s) evs).server? = some s2 ∧ s2.conns[i]? = some c2 ∧
      c2.written = c.written ∧ c2.isOpen = false := by
  have hinv := reachable_running_inv hr
  have hclosed := closed_of_closeCalls (hinv.2.2 c (List.getElem?_mem hc)) hw hcl
  refine ⟨hclosed, ?_, ?_⟩
  · intro now
    obtain ⟨s2, h1, _, _, _, _, _, h3, _⟩ := step_change_conns s now hinv
    exact ⟨s2, h1, h3 i c hc hclosed⟩
  · exact run_keeps_closed (.running s) evs i c.written hinv ⟨s, c, rfl, hc, rfl, hclosed⟩

theorem oneClosed_reachable : Reachable (.running oneClosed) :=
  ⟨some "target.txt", [.connect true, .connect true, .close 0], by decide⟩

/-- C7 at the state where the first of two subscribers has disconnected,
followed by a change, a new subscriber, a second close and another change. -/
theorem C7_nothing_written_after_close_witness :
    Reachable (.running oneClosed) ∧
    oneClosed.conns[0]?
      = some { isOpen := false, written := [greeting "target.txt"],
               watcher := some { active := false, closeCalls := 1 } } ∧
    (some { active := false, closeCalls := 1 } : Option Watcher)
      = some { active := false, closeCalls := 1 } ∧
    0 < ({ active := false, closeCalls := 1 } : Watcher).closeCalls ∧
    (({ isOpen := false, written := [greeting "target.txt"],
        watcher := some { active := false, closeCalls := 1 } } : Connection).isOpen = false ∧
    (∀ now, ∃ s2, step (.running oneClosed) (.change now) = .running s2 ∧
      s2.conns[0]? = some { isOpen := false, written := [greeting "target.txt"],
                            watcher := some { active := false, closeCalls := 1 } }) ∧
    ∃ s2 c2, (run (.running oneClosed)
        [.change sampleDate, .connect true, .close 0, .change sampleDate]).server? = some s2 ∧
      s2.conns[0]? = some c2 ∧
      c2.written = ({ isOpen := false, written := [greeting "target.txt"],
                      watcher := some { active := false, closeCalls := 1 } } : Connection).written ∧
      c2.isOpen = false) :=
  ⟨oneClosed_reachable, by decide, rfl, by decide,
    C7_nothing_written_after_close oneClosed 0
      { isOpen := false, written := [greeting "target.txt"],
        watcher := some { active := false, closeCalls := 1 } }
      { active := false, closeCalls := 1 }
      [.change sampleDate, .connect true, .close 0, .change sampleDate]
      oneClosed_reachable (by decide) rfl (by decide)⟩

/-- C8, as the code has it: in every reachable state, a close of an open
connection `i` that comes without a transport error closes that connection and
its watcher and nothing else: the filename, the port, the number of connections
and every other connection (watcher, open or closed, written output) are
unchanged, the written output of `i` too. A change signal that follows still
adds exactly one event line to every other open connection, and none to `i`.
A close that comes with a transport error on the socket of `i` is another
matter: the program has no `'error'` listener, the process ends, and whatever
happens afterwards no connection is written to. -/
theorem C8_close_touches_one_connection (s : Server) (i : Nat) (c : Connection)
    (now : Nat → String)
    (hr : Reachable (.running s)) (hc : s.conns[i]? = some c) (ho : c.isOpen = true) :
    (∃ s1, step (.running s) (.close i) = .running s1 ∧
      s1.filename = s.filename ∧ s1.port = s.port ∧
      s1.conns.length = s.conns.length ∧
      s1.conns[i]? = some (onClose c) ∧
      (onClose c).isOpen = false ∧ (onClose c).written = c.written ∧
      (∃ w, c.watcher = some w ∧ w.active = true ∧
        (onClose c).watcher = some { active := false, closeCalls := w.closeCalls + 1 }) ∧
      (∀ j, j ≠ i → s1.conns[j]? = s.conns[j]?) ∧
      ∃ s2, step (.running s1) (.change now) = .running s2 ∧
        s2.filename = s.filename ∧
        s2.conns[i]? = some (onClose c) ∧
        (∀ (j : Nat) (d : Connection), j ≠ i → s.conns[j]? = some d → d.isOpen = true →
          s2.conns[j]? = some { d with written := d.written ++ [eventLine (now j)] }) ∧
        (∀ (j : Nat) (d : Connection), j ≠ i → s.conns[j]? = some d → d.isOpen = false →
          s2.conns[j]? = some d)) ∧
    step (.running s) (.error i) = .exited (.unhandledError i) (some s) ∧
    ∀ evs, run (step (.running s) (.error i)) evs = .exited (.unhandledError i) (some s) := by
  have hinv := reachable_running_inv hr
  have hi : i < s.conns.length := (List.getElem?_eq_some_iff.mp hc).1
  have hstep := step_close_of_open s i c hc ho
  have herr := step_error_of_open s i c hc ho
  have hinv1 : (step (.running s) (.close i)).Inv := step_inv _ _ hinv
  rw [hstep] at hinv1
  obtain ⟨w, hw, ha, _, _⟩ := hinv.2.2 c (List.getElem?_mem hc)
  have hci : (s.conns.set i (onClose c))[i]? = some (onClose c) := by
    simp [List.getElem?_set_self hi]
  have hcj : ∀ j, j ≠ i → (s.conns.set i (onClose c))[j]? = s.conns[j]? := by
    intro j hj
    simp [List.getElem?_set_ne (Ne.symm hj)]
  obtain ⟨s2, h1, hf, _, _, _, h2, h3, _⟩ := step_change_conns _ now hinv1
  refine ⟨⟨_, hstep, rfl, rfl, by simp, hci, rfl, rfl,
    ⟨w, hw, ha.trans ho, by simp [onClose, hw, Watcher.close]⟩, hcj, s2, h1, hf, ?_, ?_, ?_⟩,
    herr, ?_⟩
  · exact h3 i (onClose c) hci rfl
  · intro j d hj hd hdo
    exact h2 j d ((hcj j hj).trans hd) hdo
  · intro j d hj hd hdo
    exact h3 j d ((hcj j hj).trans hd) hdo
  · intro evs
    rw [herr, run_exited]

/-- C8 at the state with three subscribers, the second of which closes. -/
theorem C8_close_touches_one_connection_witness :
    Reachable (.running threeSubscribers) ∧
    threeSubscribers.conns[1]?
      = some { isOpen := true, written := [greeting "target.txt"], watcher := some Watcher.fresh } ∧
    ({ isOpen := true, written := [greeting "target.txt"],
       watcher := some Watcher.fresh } : Connection).isOpen = true ∧
    ((∃ s1, step (.running threeSubscribers) (.close 1) = .running s1 ∧
      s1.filename = threeSubscribers.filename ∧ s1.port = threeSubscribers.port ∧
      s1.conns.length = threeSubscribers.conns.length ∧
      s1.conns[1]? = some (onClose { isOpen := true, written := [greeting "target.txt"],
                                     watcher := some Watcher.fresh }) ∧
      (onClose { isOpen := true, written := [greeting "target.txt"],
                 watcher := some Watcher.fresh }).isOpen = false ∧
      (onClose { isOpen := true, written := [greeting "target.txt"],
                 watcher := some Watcher.fresh }).written
        = ({ isOpen := true, written := [greeting "target.txt"],
             watcher := some Watcher.fresh } : Connection).written ∧
      (∃ w, ({ isOpen := true, written := [greeting "target.txt"],
               watcher := some Watcher.fresh } : Connection).watcher = some w ∧
        w.active = true ∧
        (onClose { isOpen := true, written := [greeting "target.txt"],
                   watcher := some Watcher.fresh }).watcher
          = some { active := false, closeCalls := w.closeCalls + 1 }) ∧
      (∀ j, j ≠ 1 → s1.conns[j]? = threeSubscribers.conns[j]?) ∧
      ∃ s2, step (.running s1) (.change sampleDate) = .running s2 ∧
        s2.filename = threeSubscribers.filename ∧
        s2.conns[1]? = some (onClose { isOpen := true, written := [greeting "target.txt"],
                                       watcher := some Watcher.fresh }) ∧
        (∀ (j : Nat) (d : Connection), j ≠ 1 → threeSubscribers.conns[j]? = some d →
          d.isOpen = true →
          s2.conns[j]? = some { d with written := d.written ++ [eventLine (sampleDate j)] }) ∧
        (∀ (j : Nat) (d : Connection), j ≠ 1 → threeSubscribers.conns[j]? = some d →
          d.isOpen = false → s2.conns[j]? = some d)) ∧
    step (.running threeSubscribers) (.error 1)
      = .exited (.unhandledError 1) (some threeSubscribers) ∧
    ∀ evs, run (step (.running threeSubscribers) (.error 1)) evs
      = .exited (.unhandledError 1) (some threeSubscribers)) :=
  ⟨threeSubscribers_reachable, by decide, rfl,
    C8_close_touches_one_connection threeSubscribers 1
      { isOpen := true, written := [greeting "target.txt"], watcher := some Watcher.fresh }
      sampleDate threeSubscribers_reachable (by decide) rfl⟩

/-- C8 as stated fails when the connection closes with a transport error: of
three subscribers the second resets its connection, the process exits on the
unhandled `'error'`, and the change signal that follows delivers no event line
to the two subscribers that remained: what was written to them is the greeting
and nothing more. -/
theorem C8_counterexample :
    run (main (some "target.txt"))
        [.connect true, .connect true, .connect true, .error 1, .change sampleDate]
      = .exited (.unhandledError 1) (some threeSubscribers) ∧
    threeSubscribers.conns[0]?
      = some { isOpen := true, written := ["Now watching \"target.txt\" for changes...\n"],
               watcher := some { active := true, closeCalls := 0 } } ∧
    threeSubscribers.conns[2]?
      = some { isOpen := true, written := ["Now watching \"target.txt\" for changes...\n"],
               watcher := some { active := true, closeCalls := 0 } } ∧
    (run (main (some "target.txt"))
        [.connect true, .connect true, .connect true, .error 1, .change sampleDate]).server?
      = (run (main (some "target.txt"))
          [.connect true, .connect true, .connect true, .error 1]).server? := by
  decide

end NetWatcher

namespace Wire

/-! ## UTF-8 bytes of strings -/

theorem utf8_append (a b : String) : utf8 (a ++ b) = utf8 a ++ utf8 b := by
  simp [utf8, String.data_append, List.flatMap_append]

theorem char_toNat_lt (c : Char) : c.toNat < 1114112 := by
  have h := c.valid
  simp only [UInt32.isValidChar, Nat.isValidChar] at h
  have hv : c.toNat = c.val.toNat := rfl
  omega

/-- Every element of an encoding is a byte. -/
theorem utf8_lt (s : String) : ∀ b ∈ utf8 s, b < 256 := by
  intro b hb
  obtain ⟨c, _, hbc⟩ := List.mem_flatMap.mp hb
  have hc := char_toNat_lt c
  unfold utf8EncodeChar at hbc
  simp only at hbc
  split_ifs at hbc <;> simp at hbc <;> omega

/-- The newline byte stands for the newline character only: it is no part of
the encoding of another character. -/
theorem newline_mem_utf8 (s : String) : newline ∈ utf8 s ↔ '\n' ∈ s.data := by
  constructor
  · intro hb
    obtain ⟨c, hcs, hbc⟩ := List.mem_flatMap.mp hb
    unfold utf8EncodeChar newline at hbc
    simp only at hbc
    have hten : c.toNat = 10 := by
      split_ifs at hbc <;> simp at hbc <;> omega
    have hc : c = '\n' := Char.ext (UInt32.ext hten)
    exact hc ▸ hcs
  · intro hmem
    exact List.mem_flatMap.mpr ⟨'\n', hmem, by decide⟩

theorem utf8EncodeChar_digitChar (d : Nat) (h : d < 10) :
    utf8EncodeChar (Nat.digitChar d) = [48 + d] := by
  interval_cases d <;> rfl

theorem flatMap_toDigitsCore_eq (fuel n : Nat) (ds : List Char) :
    ∃ pre : List Nat, (∀ b ∈ pre, 48 ≤ b ∧ b ≤ 57) ∧
      (Nat.toDigitsCore 10 fuel n ds).flatMap utf8EncodeChar
        = pre ++ ds.flatMap utf8EncodeChar := by
  induction fuel generalizing n ds with
  | zero => exact ⟨[], by simp, by simp [Nat.toDigitsCore]⟩
  | succ fuel ih =>
    have hd := utf8EncodeChar_digitChar (n % 10) (Nat.mod_lt n (by decide))
    simp only [Nat.toDigitsCore]
    split
    · refine ⟨[48 + n % 10], ?_, by simp [List.flatMap_cons, hd]⟩
      intro b hb
      rw [List.mem_singleton] at hb
      omega
    · obtain ⟨pre, hpre, heq⟩ := ih (n / 10) (Nat.digitChar (n % 10) :: ds)
      refine ⟨pre ++ [48 + n % 10], ?_, by simp [heq, List.flatMap_cons, hd]⟩
      intro b hb
      rcases List.mem_append.mp hb with hb | hb
      · exact hpre b hb
      · rw [List.mem_singleton] at hb
        omega

theorem flatMap_toDigitsCore_head (fuel n : Nat) (ds : List Char) :
    ∃ (b : Nat) (tl : List Nat), 48 ≤ b ∧ b ≤ 57 ∧
      (Nat.toDigitsCore 10 (fuel + 1) n ds).flatMap utf8EncodeChar = b :: tl := by
  induction fuel generalizing n ds with
  | zero =>
    have hd := utf8EncodeChar_digitChar (n % 10) (Nat.mod_lt n (by decide))
    refine ⟨48 + n % 10, ds.flatMap utf8EncodeChar, by omega, by omega, ?_⟩
    simp only [Nat.toDigitsCore]
    split <;> simp [List.flatMap_cons, hd]
  | succ fuel ih =>
    have hd := utf8EncodeChar_digitChar (n % 10) (Nat.mod_lt n (by decide))
    simp only [Nat.toDigitsCore]
    split
    · exact ⟨48 + n % 10, ds.flatMap utf8EncodeChar, by omega, by omega,
        by simp [List.flatMap_cons, hd]⟩
    · exact ih (n / 10) (Nat.digitChar (n % 10) :: ds)

/-- The bytes of the decimal text of a natural number: a digit, then digits. -/
theorem utf8_natRepr (n : Nat) :
    ∃ (b : Nat) (tl : List Nat), utf8 (toString n) = b :: tl ∧
      ∀ x ∈ b :: tl, 48 ≤ x ∧ x ≤ 57 := by
  obtain ⟨pre, hpre, heq⟩ := flatMap_toDigitsCore_eq (n + 1) n []
  obtain ⟨b, tl, _, _, hhead⟩ := flatMap_toDigitsCore_head n n []
  have hu : utf8 (toString n) = (Nat.toDigitsCore 10 (n + 1) n []).flatMap utf8EncodeChar := rfl
  refine ⟨b, tl, hu.trans hhead, ?_⟩
  intro x hx
  rw [← hhead, heq] at hx
  simpa using hpre x (by simpa using hx)

end Wire

namespace FrameCodec

open Wire

/-! ## Reading a number back -/

theorem readDigits_of_not_digit (acc : Nat) (rest : List Nat)
    (h : ∀ b tl, rest = b :: tl → isDigit b = false) :
    readDigits acc rest = (acc, rest) := by
  cases rest with
  | nil => rfl
  | cons b tl => simp [readDigits, h b tl rfl]

theorem readDigits_toDigitsCore (fuel n : Nat) (ds : List Char) (rest : List Nat)
    (h : n < fuel) :
    readDigits 0 ((Nat.toDigitsCore 10 fuel n ds).flatMap utf8EncodeChar ++ rest)
      = readDigits n (ds.flatMap utf8EncodeChar ++ rest) := by
  induction fuel generalizing n ds with
  | zero => omega
  | succ fuel ih =>
    have hd := utf8EncodeChar_digitChar (n % 10) (Nat.mod_lt n (by decide))
    have hdig : isDigit (48 + n % 10) = true := by
      simp only [isDigit, Bool.and_eq_true, decide_eq_true_eq]
      omega
    simp only [Nat.toDigitsCore]
    split
    · rename_i h0
      have hn : n % 10 = n := by omega
      simp only [List.flatMap_cons, hd, List.singleton_append, List.cons_append, readDigits,
        hdig, if_true]
      congr 1
      omega
    · rename_i h0
      rw [ih (n / 10) (Nat.digitChar (n % 10) :: ds) (by omega)]
      simp only [List.flatMap_cons, hd, List.singleton_append, List.cons_append, readDigits,
        hdig, if_true]
      congr 1
      omega

theorem readNat_natRepr (n : Nat) (rest : List Nat)
    (h : ∀ b tl, rest = b :: tl → isDigit b = false) :
    readNat (utf8 (toString n) ++ rest) = some (n, rest) := by
  obtain ⟨b, tl, hu, hall⟩ := utf8_natRepr n
  have hb := hall b (List.mem_cons_self b tl)
  have hdig : isDigit b = true := by
    simp only [isDigit, Bool.and_eq_true, decide_eq_true_eq]
    omega
  have hread : readDigits 0 (utf8 (toString n) ++ rest) = (n, rest) := by
    have h1 := readDigits_toDigitsCore (n + 1) n [] rest (by omega)
    have hu2 : utf8 (toString n)
        = (Nat.toDigitsCore 10 (n + 1) n []).flatMap utf8EncodeChar := rfl
    rw [hu2, h1]
    simpa using readDigits_of_not_digit n rest h
  rw [hu] at hread ⊢
  simp only [List.cons_append, readNat, hdig, if_true]
  rw [← hread]
  rfl

theorem toString_int_ofNat (n : Nat) : toString (Int.ofNat n) = toString n := rfl

theorem toString_int_negSucc (n : Nat) :
    toString (Int.negSucc n) = "-" ++ toString (n + 1) := rfl

theorem utf8_minus : utf8 "-" = [45] := by decide

/-- The bytes of the decimal text of an integer: a minus sign or a digit, then
digits. -/
theorem utf8_intRepr (t : Int) :
    ∃ (b : Nat) (tl : List Nat), utf8 (toString t) = b :: tl ∧
      ∀ x ∈ b :: tl, x = 45 ∨ (48 ≤ x ∧ x ≤ 57) := by
  cases t with
  | ofNat n =>
    obtain ⟨b, tl, hu, hall⟩ := utf8_natRepr n
    exact ⟨b, tl, by rw [toString_int_ofNat, hu], fun x hx => Or.inr (hall x hx)⟩
  | negSucc n =>
    obtain ⟨b, tl, hu, hall⟩ := utf8_natRepr (n + 1)
    refine ⟨45, b :: tl, by rw [toString_int_negSucc, utf8_append, utf8_minus, hu]; rfl, ?_⟩
    intro x hx
    rcases List.mem_cons.mp hx with hx | hx
    · exact Or.inl hx
    · exact Or.inr (hall x hx)

theorem readInt_intRepr (t : Int) (rest : List Nat)
    (h : ∀ b tl, rest = b :: tl → isDigit b = false) :
    readInt (utf8 (toString t) ++ rest) = some (t, rest) := by
  cases t with
  | ofNat n =>
    obtain ⟨b, tl, hu, hall⟩ := utf8_natRepr n
    have hb := hall b (List.mem_cons_self b tl)
    have h45 : b ≠ 45 := by omega
    have hr := readNat_natRepr n rest h
    rw [toString_int_ofNat]
    rw [hu] at hr ⊢
    simp only [List.cons_append, readInt, h45, if_false] at hr ⊢
    rw [hr]
    rfl
  | negSucc n =>
    have hr := readNat_natRepr (n + 1) rest h
    rw [toString_int_negSucc, utf8_append, utf8_minus]
    simp only [List.singleton_append, List.cons_append, List.nil_append, readInt, if_true, hr]
    rfl

theorem skipWs_intRepr (t : Int) (rest : List Nat) :
    skipWs (utf8 (toString t) ++ rest) = utf8 (toString t) ++ rest := by
  obtain ⟨b, tl, hu, hall⟩ := utf8_intRepr t
  have hb := hall b (List.mem_cons_self b tl)
  have hws : isWs b = false := by
    simp only [isWs, Bool.or_eq_false_iff, decide_eq_false_iff_not]
    omega
  rw [hu]
  simp [skipWs, hws]

/-! ## Scanning for the terminator -/

theorem scan_of_no_newline (cur xs rest : List Nat) (h : newline ∉ xs) :
    scan cur (xs ++ rest) = scan (cur ++ xs) rest := by
  induction xs generalizing cur with
  | nil => simp
  | cons b xs ih =>
    have hb : b ≠ newline := fun hb => h (hb ▸ List.mem_cons_self b xs)
    have hxs : newline ∉ xs := fun hx => h (List.mem_cons_of_mem b hx)
    rw [List.cons_append, scan, if_neg hb, ih (cur ++ [b]) hxs]
    simp

theorem scan_append (cur xs ys : List Nat) :
    scan cur (xs ++ ys)
      = ((scan cur xs).1 ++ (scan (scan cur xs).2 ys).1, (scan (scan cur xs).2 ys).2) := by
  induction xs generalizing cur with
  | nil => simp [scan]
  | cons b xs ih =>
    by_cases hb : b = newline
    · rw [List.cons_append, scan, scan, if_pos hb, if_pos hb, ih []]
      rfl
    · rw [List.cons_append, scan, scan, if_neg hb, if_neg hb, ih (cur ++ [b])]

theorem scan_tail_no_newline (cur xs : List Nat) (h : newline ∉ cur) :
    newline ∉ (scan cur xs).2 := by
  induction xs generalizing cur with
  | nil => simpa [scan] using h
  | cons b xs ih =>
    by_cases hb : b = newline
    · simp only [scan, hb, if_true]
      exact ih [] (by simp)
    · simp only [scan, hb, if_false]
      apply ih
      intro hmem
      rcases List.mem_append.mp hmem with hmem | hmem
      · exact h hmem
      · exact hb (List.mem_singleton.mp hmem).symm

theorem decode_eq_scan (buffer newBytes : List Nat) (h : newline ∉ buffer) :
    decode buffer newBytes = scan buffer newBytes := by
  rw [decode, scan_of_no_newline [] buffer newBytes h]
  simp

theorem feed_eq_scan (buffer : List Nat) (chunks : List (List Nat)) (h : newline ∉ buffer) :
    feed buffer chunks = scan buffer chunks.flatten := by
  induction chunks generalizing buffer with
  | nil => simp [feed, scan]
  | cons chunk chunks ih =>
    simp only [feed, List.flatten_cons]
    rw [decode_eq_scan buffer chunk h, scan_append,
      ih (scan buffer chunk).2 (scan_tail_no_newline buffer chunk h)]

/-! ## The canonical encoding -/

theorem payload_eq (e : ChangeEvent) :
    payload e
      = utf8 "\x7b\"type\":\"changed\",\"timestamp\":"
        ++ (utf8 (toString e.timestamp) ++ utf8 "\x7d") := by
  simp only [payload, payloadText, ChangeEvent.type, utf8_append, List.append_assoc]
  rfl

theorem payload_no_newline (e : ChangeEvent) : newline ∉ payload e := by
  obtain ⟨b, tl, hu, hall⟩ := utf8_intRepr e.timestamp
  rw [payload_eq, List.mem_append, List.mem_append]
  rintro (h | h | h)
  · revert h
    decide
  · rw [hu] at h
    rcases hall newline h with h45 | h48
    · exact absurd h45 (by decide)
    · exact absurd h48.1 (by decide)
  · revert h
    decide

theorem scan_encodings (es : List ChangeEvent) :
    scan [] (es.map encode).flatten = (es.map payload, []) := by
  induction es with
  | nil => rfl
  | cons e es ih =>
    simp only [List.map_cons, List.flatten_cons, encode, List.append_assoc]
    rw [scan_of_no_newline [] (payload e) _ (payload_no_newline e)]
    simp [scan, ih]

theorem parseFrame_after_header (input : List Nat) :
    parseFrame (utf8 "\x7b\"type\":\"changed\",\"timestamp\":" ++ input)
      = (readInt (skipWs input)).bind (fun r =>
          (expect "\x7d" (skipWs r.2)).bind (fun i =>
            if skipWs i = [] then some { timestamp := r.1 } else none)) := by
  rfl

theorem closingBrace_not_digit (b : Nat) (tl : List Nat) (h : utf8 "\x7d" = b :: tl) :
    isDigit b = false := by
  have h125 : utf8 "\x7d" = [125] := by decide
  rw [h125] at h
  cases h
  decide

theorem parseFrame_payload (e : ChangeEvent) : parseFrame (payload e) = some e := by
  rw [payload_eq, parseFrame_after_header, skipWs_intRepr,
    readInt_intRepr e.timestamp (utf8 "\x7d") closingBrace_not_digit]
  rfl

/-! ## Claims on framing -/

open TestJsonService

/-- C9: for every list of events and every way of cutting the concatenation of
their encodings into chunks, feeding the chunks to `decode` one at a time with
the returned buffer carried forward yields the payloads of the events in order
and an empty final buffer, and each payload reads back as its event. The two
chunks the test service sends decode to no frame after the first and to exactly
one frame after the second, with an empty buffer, and that frame reads back as
the event with timestamp 1525549135. -/
theorem C9_chunk_invariance (es : List ChangeEvent) (chunks : List (List Nat))
    (h : chunks.flatten = (es.map encode).flatten) :
    feed [] chunks = (es.map payload, []) ∧
    (feed [] chunks).1.map parseFrame = es.map some ∧
    sentChunks = [utf8 firstChunk, utf8 secondChunk] ∧
    decode [] (utf8 firstChunk) = ([], utf8 firstChunk) ∧
    decode (utf8 firstChunk) (utf8 secondChunk) = ([utf8 harnessMessage], []) ∧
    feed [] sentChunks = ([utf8 harnessMessage], []) ∧
    (feed [] sentChunks).1.map parseFrame = [some { timestamp := 1525549135 }] := by
  have hfeed : feed [] chunks = (es.map payload, []) := by
    rw [feed_eq_scan [] chunks (by simp), h, scan_encodings]
  refine ⟨hfeed, ?_, by decide, by decide, by decide, by decide, by decide⟩
  rw [hfeed]
  simp [List.map_map, Function.comp_def, parseFrame_payload]

/-- C9 for two events cut into four chunks, one of them empty. -/
theorem C9_chunk_invariance_witness :
    sampleChunks.flatten = (sampleEvents.map encode).flatten ∧
    (feed [] sampleChunks = (sampleEvents.map payload, []) ∧
    (feed [] sampleChunks).1.map parseFrame = sampleEvents.map some ∧
    sentChunks = [utf8 firstChunk, utf8 secondChunk] ∧
    decode [] (utf8 firstChunk) = ([], utf8 firstChunk) ∧
    decode (utf8 firstChunk) (utf8 secondChunk) = ([utf8 harnessMessage], []) ∧
    feed [] sentChunks = ([utf8 harnessMessage], []) ∧
    (feed [] sentChunks).1.map parseFrame = [some { timestamp := 1525549135 }]) :=
  ⟨by decide, C9_chunk_invariance sampleEvents sampleChunks (by decide)⟩

/-- C10, as the code has it: the first chunk is the first 28 bytes of the whole
message and the second chunk the rest, the cut falling inside the payload; the
first chunk holds no newline; the two chunks together are one frame, a JSON
text followed by a single newline that is the last byte and occurs nowhere
else. The JSON text has a space after each colon and comma: it reads back as
the event with type "changed" and timestamp 1525549135 but is not the canonical
encoding of that event. -/
theorem C10_harness_chunks :
    sentChunks = [utf8 firstChunk, utf8 secondChunk] ∧
    (utf8 firstChunk).length = 28 ∧
    utf8 firstChunk = (utf8 (firstChunk ++ secondChunk)).take 28 ∧
    utf8 secondChunk = (utf8 (firstChunk ++ secondChunk)).drop 28 ∧
    28 < (utf8 harnessMessage).length ∧
    newline ∉ utf8 firstChunk ∧
    utf8 (firstChunk ++ secondChunk) = utf8 harnessMessage ++ [newline] ∧
    newline ∉ utf8 harnessMessage ∧
    scan [] (utf8 (firstChunk ++ secondChunk)) = ([utf8 harnessMessage], []) ∧
    parseFrame (utf8 harnessMessage) = some { timestamp := 1525549135 } ∧
    ChangeEvent.type { timestamp := 1525549135 } = "changed" ∧
    utf8 harnessMessage ≠ payload { timestamp := 1525549135 } := by
  decide

/-- C10 as stated fails: the first chunk has 28 bytes, not 29, so it is not the
first 29 bytes of the message, and the message is not the canonical encoding of
the event followed by a newline. -/
theorem C10_counterexample :
    (utf8 firstChunk).length = 28 ∧
    (utf8 firstChunk).length ≠ 29 ∧
    utf8 firstChunk ≠ (utf8 firstChunk ++ utf8 secondChunk).take 29 ∧
    utf8 firstChunk ++ utf8 secondChunk ≠ encode { timestamp := 1525549135 } := by
  decide

end FrameCodec
